import Mathlib

/-!
Verification development for the director-agent pipeline.

The executor (`src/director_agent/executor.py`) and editor
(`src/director_agent/editor.py`) are embedded as pure functions.
External processes are modelled by an oracle `Env.run` giving, for each
launched invocation, its exit code, captured stdout/stderr, and whether
the process created its expected output file.  The filesystem is the
list of existing paths; tool invocations are recorded in a trace.
-/

namespace DirectorAgent

/-- Scene, mirroring the pydantic model in `models.py`. -/
structure Scene where
  id : Int
  duration : Int
  visual_type : String := "video"
  visual_prompt : String
  reference_group : Option String := none
  reference_prompt : Option String := none
  audio_source : String := "default"
  narration_text : Option String := none
  voice_id : String := "Charon"
  music_prompt : Option String := none
deriving Repr, DecidableEq

/-- ProductionManifest, mirroring `models.py`. -/
structure ProductionManifest where
  title : String
  topic : String
  scenes : List Scene
  total_duration : Int
deriving Repr, DecidableEq

/-- Python truthiness of an `Optional[str]` field: `None` and `""` are falsy. -/
def optTruthy : Option String → Bool
  | none => false
  | some s => s != ""

/-- The run's working directory (`settings.TEMP_DIR` in the source). -/
def TEMP_DIR : String := "/tmp/director-agent"

/-- Per-scene working directory, `TEMP_DIR / f"scene_{scene.id}"`. -/
def scene_dir (s : Scene) : String := TEMP_DIR ++ "/scene_" ++ toString s.id

/-- Expected motion-clip output for a video scene. -/
def videoPath (s : Scene) : String := scene_dir s ++ "/video.mp4"

/-- Expected still-image output for an image scene. -/
def imagePath (s : Scene) : String := scene_dir s ++ "/image.png"

/-- Expected narration output, `scene_dir / "narration.mp3"`. -/
def narrationPath (s : Scene) : String := scene_dir s ++ "/narration.mp3"

/-- Expected music output, `scene_dir / "score.mp3"`. -/
def scorePath (s : Scene) : String := scene_dir s ++ "/score.mp3"

/-- Reference image path, `TEMP_DIR / f"ref_{group}.png"`. -/
def refPath (g : String) : String := TEMP_DIR ++ "/ref_" ++ g ++ ".png"

/-- One launch of an external generator (the wrapper methods of `Executor`). -/
inductive Invocation where
  | veo (prompt : String) (duration : Int) (output : String) (refImage : Option String)
  | imageGen (prompt : String) (output : String)
  | refImageGen (group : String) (prompt : String) (output : String)
  | tts (text : String) (voice : String) (output : String)
  | music (prompt : String) (duration : Int) (output : String)
deriving Repr, DecidableEq

/-- The expected output file of an invocation. -/
def invOutput : Invocation → String
  | .veo _ _ out _ => out
  | .imageGen _ out => out
  | .refImageGen _ _ out => out
  | .tts _ _ out => out
  | .music _ _ out => out

/-- The argument vector actually executed for an invocation (the mocked
ffmpeg commands in the source wrappers). -/
def invArgv : Invocation → List String
  | .veo _ d out _ =>
      ["ffmpeg", "-y", "-f", "lavfi", "-i",
       "testsrc=duration=" ++ toString d ++ ":size=1920x1080:rate=30",
       "-f", "lavfi", "-i", "sine=frequency=1000:duration=" ++ toString d,
       "-c:v", "libx264", "-pix_fmt", "yuv420p", "-c:a", "aac", "-shortest", out]
  | .imageGen _ out =>
      ["ffmpeg", "-y", "-f", "lavfi", "-i", "color=c=blue:s=3840x2160",
       "-frames:v", "1", out]
  | .refImageGen _ _ out =>
      ["ffmpeg", "-y", "-f", "lavfi", "-i", "color=c=green:s=3840x2160",
       "-frames:v", "1", out]
  | .tts _ _ out =>
      ["ffmpeg", "-y", "-f", "lavfi", "-i", "sine=frequency=440:duration=2", out]
  | .music _ d out =>
      ["ffmpeg", "-y", "-f", "lavfi", "-i",
       "sine=frequency=220:duration=" ++ toString d, out]

/-- Outcome of one external process: exit status, captured streams, and
whether the process created its expected output file. -/
structure ProcResult where
  exitCode : Int
  stdout : String
  stderr : String
  created : Bool
deriving Repr, DecidableEq

/-- Behaviour of the external world: what each launched process does. -/
structure Env where
  run : Invocation → ProcResult

/-- The `subprocess.CalledProcessError` raised by
`subprocess.run(..., check=True, capture_output=True)`. -/
structure CalledProcessError where
  cmd : List String
  returncode : Int
  output : String
  stderr : String
deriving Repr, DecidableEq

/-- Filesystem model: the list of existing (non-empty) files. -/
abbrev FS := List String

/-- Launch one external process with `check=True, capture_output=True`:
a nonzero exit raises `CalledProcessError` carrying the executed command,
exit code, stdout and stderr; on zero exit the call is treated as
successful (the source performs no check on the output file). -/
def runTool (env : Env) (fs : FS) (inv : Invocation) :
    Option CalledProcessError × FS :=
  let r := env.run inv
  if r.exitCode = 0 then
    (none, if r.created then invOutput inv :: fs else fs)
  else
    (some ⟨invArgv inv, r.exitCode, r.stdout, r.stderr⟩, fs)

/-- Reference image passed to the motion-clip generator:
`self.reference_cache.get(scene.reference_group) if scene.reference_group else None`. -/
def refImageFor (cache : List (String × String)) (s : Scene) : Option String :=
  if optTruthy s.reference_group then cache.lookup (s.reference_group.getD "")
  else none

/-- Launch one tool invocation, recording it in the trace. -/
def toolCall (env : Env) (fs : FS) (inv : Invocation) :
    Option CalledProcessError × FS × List Invocation :=
  ((runTool env fs inv).1, (runTool env fs inv).2, [inv])

/-- Visual step of `_produce_scene_assets`: skip when the expected output
exists, else run the motion-clip or still-image generator. -/
def visualStep (env : Env) (cache : List (String × String)) (fs : FS) (s : Scene) :
    Option CalledProcessError × FS × List Invocation :=
  if s.visual_type = "video" then
    if videoPath s ∈ fs then (none, fs, [])
    else
      toolCall env fs
        (Invocation.veo s.visual_prompt s.duration (videoPath s) (refImageFor cache s))
  else
    if imagePath s ∈ fs then (none, fs, [])
    else toolCall env fs (Invocation.imageGen s.visual_prompt (imagePath s))

/-- Narration step (inside the `audio_source == "generated"` branch). -/
def narrationStep (env : Env) (fs : FS) (s : Scene) :
    Option CalledProcessError × FS × List Invocation :=
  if optTruthy s.narration_text then
    if narrationPath s ∈ fs then (none, fs, [])
    else
      toolCall env fs
        (Invocation.tts (s.narration_text.getD "") s.voice_id (narrationPath s))
  else (none, fs, [])

/-- Music step (inside the `audio_source == "generated"` branch). -/
def musicStep (env : Env) (fs : FS) (s : Scene) :
    Option CalledProcessError × FS × List Invocation :=
  if optTruthy s.music_prompt then
    if scorePath s ∈ fs then (none, fs, [])
    else
      toolCall env fs
        (Invocation.music (s.music_prompt.getD "") s.duration (scorePath s))
  else (none, fs, [])

/-- The asset record returned on the success path of
`_produce_scene_assets`, in dict insertion order. -/
def sceneRecord (s : Scene) : List (String × String) :=
  [("type", s.visual_type)]
  ++ (if s.visual_type = "video" then [("video", videoPath s)] else [("image", imagePath s)])
  ++ (if s.audio_source = "generated" ∧ optTruthy s.narration_text
      then [("audio", narrationPath s)] else [])
  ++ (if s.audio_source = "generated" ∧ optTruthy s.music_prompt
      then [("music", scorePath s)] else [])

/-- `Executor._produce_scene_assets`: visual, then (for generated audio)
narration and music; an exception from any tool call aborts the scene.
Returns the result, the filesystem afterwards, and the invocations
launched for this scene. -/
def produceSceneAssets (env : Env) (cache : List (String × String)) (fs : FS) (s : Scene) :
    Except CalledProcessError (List (String × String)) × FS × List Invocation :=
  match visualStep env cache fs s with
  | (some e, fs1, invs1) => (.error e, fs1, invs1)
  | (none, fs1, invs1) =>
    if s.audio_source = "generated" then
      match narrationStep env fs1 s with
      | (some e, fs2, invs2) => (.error e, fs2, invs1 ++ invs2)
      | (none, fs2, invs2) =>
        match musicStep env fs2 s with
        | (some e, fs3, invs3) => (.error e, fs3, invs1 ++ invs2 ++ invs3)
        | (none, fs3, invs3) => (.ok (sceneRecord s), fs3, invs1 ++ invs2 ++ invs3)
    else (.ok (sceneRecord s), fs1, invs1)

/-- `Executor._generate_reference`: generate the image only when
`ref_path` does not exist, then record it in the cache. -/
def generateReference (env : Env) (cache : List (String × String)) (fs : FS)
    (g p : String) :
    Except CalledProcessError (List (String × String)) × FS × List Invocation :=
  if refPath g ∈ fs then (.ok ((g, refPath g) :: cache), fs, [])
  else
    match toolCall env fs (Invocation.refImageGen g p (refPath g)) with
    | (some e, fs', invs) => (.error e, fs', invs)
    | (none, fs', invs) => (.ok ((g, refPath g) :: cache), fs', invs)

/-- Phase 1 of `produce_assets`: scan the scenes in manifest order and
generate a reference for each group that defines a prompt and is not yet
in the cache.  A generation failure propagates (it is not caught). -/
def prefillReferences (env : Env) :
    List Scene → List (String × String) → FS →
    Except CalledProcessError (List (String × String)) × FS × List Invocation
  | [], cache, fs => (.ok cache, fs, [])
  | s :: rest, cache, fs =>
    if optTruthy s.reference_group && optTruthy s.reference_prompt
        && !(cache.lookup (s.reference_group.getD "")).isSome then
      match generateReference env cache fs (s.reference_group.getD "") (s.reference_prompt.getD "") with
      | (.error e, fs', invs) => (.error e, fs', invs)
      | (.ok cache', fs', invs) =>
        match prefillReferences env rest cache' fs' with
        | (r, fs'', invs') => (r, fs'', invs ++ invs')
    else prefillReferences env rest cache fs

/-- Phase 2 of `produce_assets`: produce every scene; a scene whose
pipeline raises is caught at the scene boundary, its error recorded, and
the remaining scenes still produced.  Returns the asset map (keyed by
scene id), the recorded errors, the filesystem, and the trace. -/
def produceScenes (env : Env) (cache : List (String × String)) :
    List Scene → FS →
    List (Int × List (String × String)) × List (Int × CalledProcessError) × FS × List Invocation
  | [], fs => ([], [], fs, [])
  | s :: rest, fs =>
    match produceSceneAssets env cache fs s with
    | (.ok a, fs1, invs1) =>
      match produceScenes env cache rest fs1 with
      | (as, es, fs2, invs2) => ((s.id, a) :: as, es, fs2, invs1 ++ invs2)
    | (.error e, fs1, invs1) =>
      match produceScenes env cache rest fs1 with
      | (as, es, fs2, invs2) => (as, (s.id, e) :: es, fs2, invs1 ++ invs2)

/-- `Executor.produce_assets`: reference prefill, then scene production
against the populated cache.  A prefill failure propagates; scene
failures are caught and recorded. -/
def produce_assets (env : Env) (m : ProductionManifest)
    (cache : List (String × String)) (fs : FS) :
    Except CalledProcessError
      (List (Int × List (String × String)) × List (Int × CalledProcessError) × List (String × String))
    × FS × List Invocation :=
  match prefillReferences env m.scenes cache fs with
  | (.error e, fs', invs) => (.error e, fs', invs)
  | (.ok cache', fs', invs) =>
    match produceScenes env cache' m.scenes fs' with
    | (as, es, fs'', invs') => (.ok (as, es, cache'), fs'', invs ++ invs')

/-- Does an invocation synthesize an audio track (narration or music)? -/
def isSynthAudio : Invocation → Bool
  | .tts _ _ _ => true
  | .music _ _ _ => true
  | _ => false

/-- Per-scene render command built by `Editor.assemble`: a video scene is
re-encoded from the motion clip alone (its own audio carried along); an
image scene is rendered from the still image with optional narration and
music inputs mixed in. -/
inductive RenderCmd where
  | videoScene (input : String) (out : String)
  | imageScene (image : String) (narr : Option String) (music : Option String)
      (duration : Int) (out : String)
deriving Repr, DecidableEq

/-- Behaviour of the media engine during assembly: whether each per-scene
render succeeds, and whether the stream-copy concat pass succeeds. -/
structure EditEnv where
  renderOk : RenderCmd → Bool
  concatOk : Bool

/-- Intermediate clip path, `output_path.parent / f"temp_scene_{id}.mp4"`. -/
def tempScenePath (outDir : String) (i : Int) : String :=
  outDir ++ "/temp_scene_" ++ toString i ++ ".mp4"

/-- Build the render command for one scene from its asset record.
`none` models the `KeyError` raised by `scene_data['video']` /
`scene_data['image']` when the key is absent (not caught by the
`except ffmpeg.Error` handler). -/
def buildRenderCmd (s : Scene) (rec : List (String × String)) (out : String) :
    Option RenderCmd :=
  if s.visual_type = "video" then
    (rec.lookup "video").map (fun v => RenderCmd.videoScene v out)
  else
    (rec.lookup "image").map (fun img =>
      RenderCmd.imageScene img (rec.lookup "audio") (rec.lookup "music") s.duration out)

/-- The scene loop of `Editor.assemble`: scenes without an entry (or with
a falsy, empty record) are skipped; a render failure is caught and the
scene id logged; a successful render appends the intermediate clip, in
manifest order.  A `KeyError` propagates. -/
def assembleClips (env : EditEnv) (assets : List (Int × List (String × String)))
    (outDir : String) : List Scene → Except String (List String × List Int)
  | [] => .ok ([], [])
  | s :: rest =>
    match assets.lookup s.id with
    | none => assembleClips env assets outDir rest
    | some rec =>
      if rec.isEmpty then assembleClips env assets outDir rest
      else
        match buildRenderCmd s rec (tempScenePath outDir s.id) with
        | none => .error ("KeyError in scene " ++ toString s.id)
        | some cmd =>
          match assembleClips env assets outDir rest with
          | .error e => .error e
          | .ok (cs, es) =>
            if env.renderOk cmd then .ok (tempScenePath outDir s.id :: cs, es)
            else .ok (cs, s.id :: es)

/-- Observable outcome of `Editor.assemble`. -/
structure AssembleResult where
  clips : List String
  renderErrors : List Int
  noScenes : Bool
  concatRan : Bool
  concatFailed : Bool
  listEntries : List String
  returned : String
deriving Repr, DecidableEq

/-- `Editor.assemble`: render each scene to an intermediate clip; with
zero clips, print an error and return the output path; otherwise write
the concat list (clip paths in order) and run the stream-copy concat,
catching (and merely logging) a concat failure; always return
`output_path`. -/
def assemble (env : EditEnv) (m : ProductionManifest)
    (assets : List (Int × List (String × String))) (outDir outName : String) :
    Except String AssembleResult :=
  let outputPath := outDir ++ "/" ++ outName
  match assembleClips env assets outDir m.scenes with
  | .error e => .error e
  | .ok (clips, rerrs) =>
    if clips.isEmpty then
      .ok ⟨[], rerrs, true, false, false, [], outputPath⟩
    else
      .ok ⟨clips, rerrs, false, true, !env.concatOk, clips, outputPath⟩

/-- Which intermediate clip (if any) scene `s` contributes, per the
editor's per-scene branch. -/
def sceneClipPlan (env : EditEnv) (assets : List (Int × List (String × String)))
    (outDir : String) (s : Scene) : Option String :=
  match assets.lookup s.id with
  | none => none
  | some rec =>
    if rec.isEmpty then none
    else
      match buildRenderCmd s rec (tempScenePath outDir s.id) with
      | none => none
      | some cmd =>
        if env.renderOk cmd then some (tempScenePath outDir s.id) else none

/-! Concrete fixtures used to exercise the model on closed inputs. -/

/-- A world where every external process succeeds and writes its output. -/
def envAllOk : Env := ⟨fun _ => ⟨0, "", "", true⟩⟩

/-- A world where every process exits zero but never writes its output. -/
def envNoWrite : Env := ⟨fun _ => ⟨0, "", "", false⟩⟩

/-- A native-audio video scene. -/
def sVid : Scene :=
  { id := 1, duration := 4, visual_type := "video", visual_prompt := "a ship",
    audio_source := "native" }

/-- An image scene with default audio. -/
def sImg : Scene :=
  { id := 7, duration := 6, visual_type := "image",
    visual_prompt := "a vintage map of the island", audio_source := "default" }

/-- An image scene with generated narration and music. -/
def sGen : Scene :=
  { id := 2, duration := 4, visual_type := "image", visual_prompt := "a port",
    audio_source := "generated", narration_text := some "hello",
    music_prompt := some "calm strings" }

/-- A video scene defining a reference group. -/
def sRef : Scene :=
  { id := 4, duration := 4, visual_type := "video", visual_prompt := "the captain",
    reference_group := some "captain", reference_prompt := some "portrait of a captain",
    audio_source := "native" }

/-- Three native-audio video scenes for the partial-failure run. -/
def sA : Scene :=
  { id := 1, duration := 4, visual_type := "video", visual_prompt := "one",
    audio_source := "native" }

/-- Second scene of the partial-failure run (its tool call is made to fail). -/
def sB : Scene :=
  { id := 2, duration := 4, visual_type := "video", visual_prompt := "two",
    audio_source := "native" }

/-- Third scene of the partial-failure run. -/
def sC : Scene :=
  { id := 3, duration := 4, visual_type := "video", visual_prompt := "three",
    audio_source := "native" }

/-- A world where exactly scene `sB`'s motion-clip generation fails. -/
def envFailB : Env :=
  ⟨fun inv => if invOutput inv = videoPath sB then ⟨1, "", "boom", false⟩
              else ⟨0, "", "", true⟩⟩

/-- Manifest for the partial-failure run. -/
def mABC : ProductionManifest := ⟨"t", "t", [sA, sB, sC], 12⟩

/-- The typed failure raised for scene `sB` under `envFailB`. -/
def eB : CalledProcessError :=
  ⟨invArgv (Invocation.veo "two" 4 (videoPath sB) none), 1, "", "boom"⟩

/-- Manifest whose scene sequence is `[id=5, id=2]`. -/
def s5 : Scene :=
  { id := 5, duration := 4, visual_type := "video", visual_prompt := "five",
    audio_source := "native" }

/-- The `id=2` scene of the order fixture. -/
def s2 : Scene :=
  { id := 2, duration := 4, visual_type := "video", visual_prompt := "deux",
    audio_source := "native" }

/-- Manifest listing scene 5 before scene 2. -/
def m52 : ProductionManifest := ⟨"t", "t", [s5, s2], 8⟩

/-- Asset map for `m52`, as the executor would produce it. -/
def assets52 : List (Int × List (String × String)) :=
  [(5, [("type", "video"), ("video", videoPath s5)]),
   (2, [("type", "video"), ("video", videoPath s2)])]

/-- Manifest with the single scene `sVid`. -/
def mVid : ProductionManifest := ⟨"t", "t", [sVid], 4⟩

/-- Asset map for `mVid`. -/
def assetsVid : List (Int × List (String × String)) :=
  [(1, [("type", "video"), ("video", videoPath sVid)])]

/-- Media engine where every render and the concat succeed. -/
def edOk : EditEnv := ⟨fun _ => true, true⟩

/-- Media engine where renders succeed but the concat pass fails. -/
def edNoConcat : EditEnv := ⟨fun _ => true, false⟩

/-- Manifest with the single reference-defining scene `sRef`. -/
def mRef : ProductionManifest := ⟨"t", "t", [sRef], 4⟩

/-- Filesystem in which every output `sGen` could need already exists. -/
def fsFull : FS :=
  [videoPath sGen, imagePath sGen, narrationPath sGen, scorePath sGen]

/-! Helper lemmas. -/

theorem runTool_exit_zero (env : Env) (fs : FS) (inv : Invocation)
    (h : (env.run inv).exitCode = 0) :
    runTool env fs inv =
      (none, if (env.run inv).created then invOutput inv :: fs else fs) := by
  simp [runTool, h]

theorem runTool_exit_nonzero (env : Env) (fs : FS) (inv : Invocation)
    (h : ¬(env.run inv).exitCode = 0) :
    runTool env fs inv =
      (some ⟨invArgv inv, (env.run inv).exitCode, (env.run inv).stdout,
        (env.run inv).stderr⟩, fs) := by
  simp [runTool, h]

theorem produceSceneAssets_ok_record (env : Env) (cache : List (String × String))
    (fs : FS) (s : Scene) (a : List (String × String)) (fs' : FS)
    (invs : List Invocation)
    (h : produceSceneAssets env cache fs s = (.ok a, fs', invs)) :
    a = sceneRecord s := by
  unfold produceSceneAssets at h
  split at h
  · simp at h
  · split at h
    · split at h
      · simp at h
      · split at h
        · simp at h
        · simp_all
    · simp_all

/-- Claim C10: the key set of the asset record returned by scene production is
a pure function of the scene's fields, independent of the filesystem, the
environment and the cache: it maps `type` to the scene's `visual_type`,
contains `video` iff `visual_type = "video"` (else `image`), contains
`audio` iff `audio_source = "generated"` and `narration_text` is truthy, and
contains `music` iff `audio_source = "generated"` and `music_prompt` is
truthy. -/
theorem asset_record_keys_pure (env : Env) (cache : List (String × String))
    (fs : FS) (s : Scene) (a : List (String × String)) (fs' : FS)
    (invs : List Invocation)
    (h : produceSceneAssets env cache fs s = (.ok a, fs', invs)) :
    a.lookup "type" = some s.visual_type
    ∧ ((a.lookup "video").isSome ↔ s.visual_type = "video")
    ∧ ((a.lookup "image").isSome ↔ ¬s.visual_type = "video")
    ∧ ((a.lookup "audio").isSome ↔
        (s.audio_source = "generated" ∧ optTruthy s.narration_text = true))
    ∧ ((a.lookup "music").isSome ↔
        (s.audio_source = "generated" ∧ optTruthy s.music_prompt = true)) := by
  have ha := produceSceneAssets_ok_record env cache fs s a fs' invs h
  subst ha
  unfold sceneRecord
  by_cases hv : s.visual_type = "video" <;>
  by_cases hg : s.audio_source = "generated" <;>
  by_cases hn : optTruthy s.narration_text = true <;>
  by_cases hm : optTruthy s.music_prompt = true <;>
  simp [hv, hg, hn, hm, List.lookup]

/-- Closed witness for `asset_record_keys_pure` at the generated-audio scene
`sGen` in the all-success world. -/
theorem asset_record_keys_pure_witness :
    (sceneRecord sGen).lookup "type" = some sGen.visual_type
    ∧ (((sceneRecord sGen).lookup "audio").isSome ↔
        (sGen.audio_source = "generated" ∧ optTruthy sGen.narration_text = true)) := by
  have h := asset_record_keys_pure envAllOk [] [] sGen (sceneRecord sGen)
    (produceSceneAssets envAllOk [] [] sGen).2.1
    (produceSceneAssets envAllOk [] [] sGen).2.2 rfl
  exact ⟨h.1, h.2.2.2.1⟩

theorem toolCall_err (env : Env) (fs : FS) (inv : Invocation)
    (e : CalledProcessError) (fs1 : FS) (invs1 : List Invocation)
    (h : toolCall env fs inv = (some e, fs1, invs1)) :
    invs1 = [inv] ∧ ¬(env.run inv).exitCode = 0 ∧
      e = ⟨invArgv inv, (env.run inv).exitCode, (env.run inv).stdout,
        (env.run inv).stderr⟩ := by
  by_cases hz : (env.run inv).exitCode = 0
  · rw [toolCall, runTool_exit_zero env fs inv hz] at h
    simp at h
  · rw [toolCall, runTool_exit_nonzero env fs inv hz] at h
    simp only [Prod.mk.injEq, Option.some.injEq] at h
    exact ⟨h.2.2.symm, hz, h.1.symm⟩

theorem toolCall_ok (env : Env) (fs : FS) (inv : Invocation)
    (fs1 : FS) (invs1 : List Invocation)
    (h : toolCall env fs inv = (none, fs1, invs1)) :
    invs1 = [inv] ∧ (env.run inv).exitCode = 0 ∧
      fs1 = if (env.run inv).created then invOutput inv :: fs else fs := by
  by_cases hz : (env.run inv).exitCode = 0
  · rw [toolCall, runTool_exit_zero env fs inv hz] at h
    simp only [Prod.mk.injEq] at h
    exact ⟨h.2.2.symm, hz, h.2.1.symm⟩
  · rw [toolCall, runTool_exit_nonzero env fs inv hz] at h
    simp at h

theorem visualStep_cases (env : Env) (cache : List (String × String)) (fs : FS)
    (s : Scene) :
    visualStep env cache fs s = (none, fs, [])
    ∨ ∃ inv, visualStep env cache fs s = toolCall env fs inv := by
  unfold visualStep
  split
  · split
    · exact Or.inl rfl
    · exact Or.inr ⟨_, rfl⟩
  · split
    · exact Or.inl rfl
    · exact Or.inr ⟨_, rfl⟩

theorem narrationStep_cases (env : Env) (fs : FS) (s : Scene) :
    narrationStep env fs s = (none, fs, [])
    ∨ ∃ inv, narrationStep env fs s = toolCall env fs inv := by
  unfold narrationStep
  split
  · split
    · exact Or.inl rfl
    · exact Or.inr ⟨_, rfl⟩
  · exact Or.inl rfl

theorem musicStep_cases (env : Env) (fs : FS) (s : Scene) :
    musicStep env fs s = (none, fs, [])
    ∨ ∃ inv, musicStep env fs s = toolCall env fs inv := by
  unfold musicStep
  split
  · split
    · exact Or.inl rfl
    · exact Or.inr ⟨_, rfl⟩
  · exact Or.inl rfl

theorem step_err_char (env : Env) (fs : FS)
    (res : Option CalledProcessError × FS × List Invocation)
    (hcase : res = (none, fs, []) ∨ ∃ inv, res = toolCall env fs inv)
    (e : CalledProcessError) (fs1 : FS) (invs1 : List Invocation)
    (h : res = (some e, fs1, invs1)) :
    ∃ inv, inv ∈ invs1 ∧ ¬(env.run inv).exitCode = 0 ∧
      e = ⟨invArgv inv, (env.run inv).exitCode, (env.run inv).stdout,
        (env.run inv).stderr⟩ := by
  rcases hcase with hskip | ⟨inv, hc⟩
  · rw [hskip] at h; simp at h
  · rw [hc] at h
    obtain ⟨h1, h2, h3⟩ := toolCall_err env fs inv e fs1 invs1 h
    exact ⟨inv, by simp [h1], h2, h3⟩

theorem step_ok_char (env : Env) (fs : FS)
    (res : Option CalledProcessError × FS × List Invocation)
    (hcase : res = (none, fs, []) ∨ ∃ inv, res = toolCall env fs inv)
    (fs1 : FS) (invs1 : List Invocation)
    (h : res = (none, fs1, invs1)) :
    ∀ inv ∈ invs1, (env.run inv).exitCode = 0 := by
  rcases hcase with hskip | ⟨inv, hc⟩
  · rw [hskip] at h
    simp only [Prod.mk.injEq] at h
    rw [← h.2.2]
    intro inv hm
    exact absurd hm (List.not_mem_nil inv)
  · rw [hc] at h
    obtain ⟨h1, h2, _⟩ := toolCall_ok env fs inv fs1 invs1 h
    intro i hm
    rw [h1] at hm
    rcases List.mem_singleton.mp hm with rfl
    exact h2

/-- Claim C1 (amended): a tool call made during scene production is treated
as successful exactly when the external process exits with status zero — the
code performs no check that the expected output path exists or is non-empty
— and any nonzero exit surfaces as a typed `CalledProcessError` carrying the
executed command, the exit code, and the captured stdout and stderr. -/
theorem scene_tool_success_iff_zero_exit (env : Env)
    (cache : List (String × String)) (fs : FS) (s : Scene) :
    (∀ e fs' invs, produceSceneAssets env cache fs s = (.error e, fs', invs) →
      ∃ inv, inv ∈ invs ∧ ¬(env.run inv).exitCode = 0 ∧
        e = ⟨invArgv inv, (env.run inv).exitCode, (env.run inv).stdout,
          (env.run inv).stderr⟩)
    ∧ (∀ a fs' invs, produceSceneAssets env cache fs s = (.ok a, fs', invs) →
      ∀ inv ∈ invs, (env.run inv).exitCode = 0) := by
  constructor
  · intro e fs' invs h
    unfold produceSceneAssets at h
    split at h
    case _ e1 fs1 invs1 hv =>
      simp only [Prod.mk.injEq, Except.error.injEq] at h
      obtain ⟨rfl, _, rfl⟩ := h
      exact step_err_char env fs _ (visualStep_cases env cache fs s) _ _ _ hv
    case _ fs1 invs1 hv =>
      split at h
      · split at h
        case _ e2 fs2 invs2 hn =>
          simp only [Prod.mk.injEq, Except.error.injEq] at h
          obtain ⟨rfl, _, rfl⟩ := h
          obtain ⟨inv, hm, hrest⟩ :=
            step_err_char env fs1 _ (narrationStep_cases env fs1 s) _ _ _ hn
          exact ⟨inv, List.mem_append_right _ hm, hrest⟩
        case _ fs2 invs2 hn =>
          split at h
          case _ e3 fs3 invs3 hmus =>
            simp only [Prod.mk.injEq, Except.error.injEq] at h
            obtain ⟨rfl, _, rfl⟩ := h
            obtain ⟨inv, hm, hrest⟩ :=
              step_err_char env fs2 _ (musicStep_cases env fs2 s) _ _ _ hmus
            exact ⟨inv, by simp [hm], hrest⟩
          case _ fs3 invs3 hmus =>
            simp at h
      · simp at h
  · intro a fs' invs h
    unfold produceSceneAssets at h
    split at h
    case _ e1 fs1 invs1 hv =>
      simp at h
    case _ fs1 invs1 hv =>
      have hv0 := step_ok_char env fs _ (visualStep_cases env cache fs s) _ _ hv
      split at h
      · split at h
        case _ e2 fs2 invs2 hn =>
          simp at h
        case _ fs2 invs2 hn =>
          have hn0 := step_ok_char env fs1 _ (narrationStep_cases env fs1 s) _ _ hn
          split at h
          case _ e3 fs3 invs3 hmus =>
            simp at h
          case _ fs3 invs3 hmus =>
            have hm0 := step_ok_char env fs2 _ (musicStep_cases env fs2 s) _ _ hmus
            simp only [Prod.mk.injEq, Except.ok.injEq] at h
            obtain ⟨_, _, rfl⟩ := h
            intro inv hm
            rcases List.mem_append.mp hm with hm' | hm'
            · rcases List.mem_append.mp hm' with hm'' | hm''
              · exact hv0 inv hm''
              · exact hn0 inv hm''
            · exact hm0 inv hm'
      · simp only [Prod.mk.injEq, Except.ok.injEq] at h
        obtain ⟨_, _, rfl⟩ := h
        exact hv0

/-- Closed witness for `scene_tool_success_iff_zero_exit`: the motion-clip
process launched for `sVid` in the all-success world exited zero. -/
theorem scene_tool_success_iff_zero_exit_witness :
    (envAllOk.run (Invocation.veo "a ship" 4 (videoPath sVid) none)).exitCode = 0 := by
  have h := (scene_tool_success_iff_zero_exit envAllOk [] [] sVid).2
    (sceneRecord sVid) [videoPath sVid]
    [Invocation.veo "a ship" 4 (videoPath sVid) none] rfl
  exact h _ (by simp)

/-- Counterexample to claim C1 as stated: in a world where the motion-clip
process exits zero but never writes its output file, the call — and the
whole scene — is treated as successful even though the expected output path
does not exist after the process exits.  No failure is raised. -/
theorem tool_success_without_output_cex :
    (produceSceneAssets envNoWrite [] [] sVid).1 = .ok (sceneRecord sVid)
    ∧ (produceSceneAssets envNoWrite [] [] sVid).2.2
        = [Invocation.veo "a ship" 4 (videoPath sVid) none]
    ∧ videoPath sVid ∉ (produceSceneAssets envNoWrite [] [] sVid).2.1 := by
  refine ⟨rfl, rfl, ?_⟩
  rw [show (produceSceneAssets envNoWrite [] [] sVid).2.1 = [] from rfl]
  exact List.not_mem_nil _

theorem visualStep_no_synth (env : Env) (cache : List (String × String))
    (fs : FS) (s : Scene) :
    ∀ inv ∈ (visualStep env cache fs s).2.2, isSynthAudio inv = false := by
  unfold visualStep
  split
  · split
    · simp
    · simp [toolCall, isSynthAudio]
  · split
    · simp
    · simp [toolCall, isSynthAudio]

/-- Claim C8: for a scene with `audio_source = "native"` no narration or
music track is ever synthesized (no TTS or music invocation appears in the
scene's trace, and the returned record carries no `audio`/`music` entry),
and the editor renders a video scene from the motion clip alone, so its
native audio passes through. -/
theorem native_audio_never_synthesized (env : Env)
    (cache : List (String × String)) (fs : FS) (s : Scene)
    (hna : s.audio_source = "native") :
    (∀ inv ∈ (produceSceneAssets env cache fs s).2.2, isSynthAudio inv = false)
    ∧ (∀ a fs' invs, produceSceneAssets env cache fs s = (.ok a, fs', invs) →
        a.lookup "audio" = none ∧ a.lookup "music" = none)
    ∧ (∀ rec out cmd, s.visual_type = "video" →
        buildRenderCmd s rec out = some cmd →
        ∃ v, rec.lookup "video" = some v ∧ cmd = RenderCmd.videoScene v out) := by
  have hgen : ¬s.audio_source = "generated" := by
    rw [hna]; intro hc; exact absurd hc (by decide)
  refine ⟨?_, ?_, ?_⟩
  · unfold produceSceneAssets
    split
    case _ e1 fs1 invs1 hv =>
      intro inv hm
      exact visualStep_no_synth env cache fs s inv (by rw [hv]; exact hm)
    case _ fs1 invs1 hv =>
      rw [if_neg hgen]
      intro inv hm
      exact visualStep_no_synth env cache fs s inv (by rw [hv]; exact hm)
  · intro a fs' invs h
    have ha := produceSceneAssets_ok_record env cache fs s a fs' invs h
    subst ha
    unfold sceneRecord
    have hnand : ¬(s.audio_source = "generated" ∧ optTruthy s.narration_text = true) :=
      fun hc => hgen hc.1
    have hmand : ¬(s.audio_source = "generated" ∧ optTruthy s.music_prompt = true) :=
      fun hc => hgen hc.1
    by_cases hv : s.visual_type = "video" <;>
      simp [hv, hgen, List.lookup]
  · intro rec out cmd hv hb
    unfold buildRenderCmd at hb
    rw [if_pos hv] at hb
    rcases hlk : rec.lookup "video" with _ | v
    · rw [hlk] at hb; simp at hb
    · rw [hlk] at hb
      simp only [Option.map_some', Option.some.injEq] at hb
      exact ⟨v, rfl, hb.symm⟩

/-- Closed witness for `native_audio_never_synthesized` at the native-audio
scene `sVid` in the all-success world. -/
theorem native_audio_never_synthesized_witness :
    isSynthAudio (Invocation.veo "a ship" 4 (videoPath sVid) none) = false
    ∧ (sceneRecord sVid).lookup "audio" = none := by
  have h := native_audio_never_synthesized envAllOk [] [] sVid rfl
  refine ⟨h.1 _ ?_, (h.2.1 (sceneRecord sVid)
    (produceSceneAssets envAllOk [] [] sVid).2.1
    (produceSceneAssets envAllOk [] [] sVid).2.2 rfl).1⟩
  rw [show (produceSceneAssets envAllOk [] [] sVid).2.2
      = [Invocation.veo "a ship" 4 (videoPath sVid) none] from rfl]
  simp

/-- Counterexample to claim C9 as stated: the `Scene` model has no
`image_style` field, and the argument vector executed for an image scene's
generation carries no style argument at all — here the whole trace of an
image scene is a single still-image invocation whose argv contains neither
a `--style` flag nor a style tag such as `Cinematic`. -/
theorem image_style_not_in_argv_cex :
    (produceSceneAssets envAllOk [] [] sImg).2.2
      = [Invocation.imageGen "a vintage map of the island" (imagePath sImg)]
    ∧ "--style" ∉ invArgv (Invocation.imageGen "a vintage map of the island" (imagePath sImg))
    ∧ "Cinematic" ∉ invArgv (Invocation.imageGen "a vintage map of the island" (imagePath sImg)) := by
  refine ⟨rfl, ?_, ?_⟩ <;> decide

/-- Claim C9 (amended): for a scene with `visual_type = "image"` whose
visual output is absent, the still-image generator is invoked with the
scene's `visual_prompt` and expected output path, and the executed argument
vector is the fixed still-image command (which carries no style argument —
the scene model has no `image_style` field). -/
theorem image_gen_invoked_with_prompt_only (env : Env)
    (cache : List (String × String)) (fs : FS) (s : Scene)
    (hv : s.visual_type = "image") (habs : imagePath s ∉ fs) :
    ∃ rest, (produceSceneAssets env cache fs s).2.2
        = Invocation.imageGen s.visual_prompt (imagePath s) :: rest
    ∧ invArgv (Invocation.imageGen s.visual_prompt (imagePath s))
        = ["ffmpeg", "-y", "-f", "lavfi", "-i", "color=c=blue:s=3840x2160",
           "-frames:v", "1", imagePath s] := by
  have hnv : ¬s.visual_type = "video" := by
    rw [hv]; intro hc; exact absurd hc (by decide)
  unfold produceSceneAssets
  have hvs : visualStep env cache fs s
      = toolCall env fs (Invocation.imageGen s.visual_prompt (imagePath s)) := by
    unfold visualStep
    rw [if_neg hnv, if_neg habs]
  rw [hvs]
  rcases hres : toolCall env fs (Invocation.imageGen s.visual_prompt (imagePath s))
    with ⟨oe, fs1, invs1⟩
  have hinvs : invs1 = [Invocation.imageGen s.visual_prompt (imagePath s)] := by
    have h22 := congrArg (fun t => t.2.2) hres
    simpa [toolCall] using h22.symm
  subst hinvs
  cases oe with
  | some e => exact ⟨[], rfl, rfl⟩
  | none =>
    dsimp only
    by_cases hg : s.audio_source = "generated"
    · rw [if_pos hg]
      rcases hn : narrationStep env fs1 s with ⟨oe2, fs2, invs2⟩
      cases oe2 with
      | some e2 => exact ⟨invs2, rfl, rfl⟩
      | none =>
        dsimp only
        rcases hm : musicStep env fs2 s with ⟨oe3, fs3, invs3⟩
        cases oe3 with
        | some e3 => exact ⟨invs2 ++ invs3, by simp, rfl⟩
        | none => exact ⟨invs2 ++ invs3, by simp, rfl⟩
    · rw [if_neg hg]
      exact ⟨[], rfl, rfl⟩

/-- Closed witness for `image_gen_invoked_with_prompt_only` at the image
scene `sImg` on an empty filesystem. -/
theorem image_gen_invoked_with_prompt_only_witness :
    (produceSceneAssets envAllOk [] [] sImg).2.2.head?
      = some (Invocation.imageGen "a vintage map of the island" (imagePath sImg)) := by
  obtain ⟨rest, hcons, _⟩ :=
    image_gen_invoked_with_prompt_only envAllOk [] [] sImg rfl (List.not_mem_nil _)
  rw [hcons]
  rfl

/-- Counterexample to claim C2 as stated: with zero rendered clips the
editor logs "No scenes to render" and returns the output path normally, and
with a failing concat pass it logs the error and still returns the output
path — neither condition terminates the run with a fatal error. -/
theorem assemble_swallows_fatal_cex :
    assemble edOk mVid [] "/out" "final.mp4"
      = .ok ⟨[], [], true, false, false, [], "/out/final.mp4"⟩
    ∧ assemble edNoConcat mVid assetsVid "/out" "final.mp4"
      = .ok ⟨[tempScenePath "/out" 1], [], false, true, true,
          [tempScenePath "/out" 1], "/out/final.mp4"⟩ := by
  exact ⟨rfl, rfl⟩

/-- Claim C2 (amended): with zero rendered clips, assembly skips the concat
pass, records the no-scenes condition, and returns the output path without
raising; a concat failure is likewise only recorded, and the output path is
still returned as the result — neither condition is propagated to the
caller as an error. -/
theorem assemble_returns_path_on_failure (env : EditEnv) (m : ProductionManifest)
    (assets : List (Int × List (String × String))) (outDir outName : String) :
    (∀ errs, assembleClips env assets outDir m.scenes = .ok ([], errs) →
      assemble env m assets outDir outName
        = .ok ⟨[], errs, true, false, false, [], outDir ++ "/" ++ outName⟩)
    ∧ (∀ r, assemble env m assets outDir outName = .ok r → r.concatFailed = true →
      env.concatOk = false ∧ r.concatRan = true
      ∧ r.returned = outDir ++ "/" ++ outName) := by
  constructor
  · intro errs h
    unfold assemble
    rw [h]
    rfl
  · intro r h hcf
    unfold assemble at h
    rcases hac : assembleClips env assets outDir m.scenes with e | ⟨clips, rerrs⟩
    · rw [hac] at h; simp at h
    · rw [hac] at h
      dsimp only at h
      by_cases hemp : clips.isEmpty = true
      · rw [if_pos hemp] at h
        simp only [Except.ok.injEq] at h
        rw [← h] at hcf
        simp at hcf
      · rw [if_neg hemp] at h
        simp only [Except.ok.injEq] at h
        rw [← h] at hcf ⊢
        simp only [Bool.not_eq_true'] at hcf
        exact ⟨hcf, rfl, rfl⟩

/-- Closed witness for `assemble_returns_path_on_failure` on a one-scene
manifest with an empty asset map. -/
theorem assemble_returns_path_on_failure_witness :
    assemble edOk mVid [] "/o" "f.mp4" = .ok ⟨[], [], true, false, false, [], "/o/f.mp4"⟩ :=
  (assemble_returns_path_on_failure edOk mVid [] "/o" "f.mp4").1 [] rfl

theorem assembleClips_filterMap (env : EditEnv)
    (assets : List (Int × List (String × String))) (outDir : String)
    (l : List Scene) (clips : List String) (errs : List Int)
    (h : assembleClips env assets outDir l = .ok (clips, errs)) :
    clips = l.filterMap (sceneClipPlan env assets outDir) := by
  induction l generalizing clips errs with
  | nil =>
    simp only [assembleClips, Except.ok.injEq, Prod.mk.injEq] at h
    simp [← h.1]
  | cons s rest ih =>
    unfold assembleClips at h
    rcases hlk : assets.lookup s.id with _ | rec
    · rw [hlk] at h
      rw [List.filterMap_cons, show sceneClipPlan env assets outDir s = none by
        simp [sceneClipPlan, hlk]]
      exact ih clips errs h
    · rw [hlk] at h
      dsimp only at h
      by_cases hemp : rec.isEmpty = true
      · rw [if_pos hemp] at h
        rw [List.filterMap_cons, show sceneClipPlan env assets outDir s = none by
          simp [sceneClipPlan, hlk, hemp]]
        exact ih clips errs h
      · rw [if_neg hemp] at h
        rcases hb : buildRenderCmd s rec (tempScenePath outDir s.id) with _ | cmd
        · rw [hb] at h; simp at h
        · rw [hb] at h
          dsimp only at h
          rcases hrec : assembleClips env assets outDir rest with e | ⟨cs, es⟩
          · rw [hrec] at h; simp at h
          · rw [hrec] at h
            dsimp only at h
            by_cases hro : env.renderOk cmd = true
            · rw [if_pos hro] at h
              simp only [Except.ok.injEq, Prod.mk.injEq] at h
              rw [List.filterMap_cons, show sceneClipPlan env assets outDir s
                  = some (tempScenePath outDir s.id) by
                simp [sceneClipPlan, hlk, hemp, hb, hro]]
              rw [← h.1, ih cs es hrec]
            · rw [if_neg hro] at h
              simp only [Except.ok.injEq, Prod.mk.injEq] at h
              rw [List.filterMap_cons, show sceneClipPlan env assets outDir s = none by
                simp [sceneClipPlan, hlk, hemp, hb, hro]]
              rw [← h.1]
              exact ih cs es hrec

/-- Claim C5: the concat list assembled by the editor lists the successfully
rendered intermediate clips in manifest sequence order — each scene
contributes according to its own entry and render outcome, traversed in
manifest order, independent of numeric ids. -/
theorem concat_list_manifest_order (env : EditEnv) (m : ProductionManifest)
    (assets : List (Int × List (String × String))) (outDir outName : String)
    (r : AssembleResult)
    (h : assemble env m assets outDir outName = .ok r) :
    r.clips = m.scenes.filterMap (sceneClipPlan env assets outDir)
    ∧ r.listEntries = (if r.clips.isEmpty then [] else r.clips) := by
  unfold assemble at h
  rcases hac : assembleClips env assets outDir m.scenes with e | ⟨clips, rerrs⟩
  · rw [hac] at h; simp at h
  · rw [hac] at h
    dsimp only at h
    have hcl := assembleClips_filterMap env assets outDir m.scenes clips rerrs hac
    by_cases hemp : clips.isEmpty = true
    · rw [if_pos hemp] at h
      simp only [Except.ok.injEq] at h
      rw [← h]
      have : clips = [] := List.isEmpty_iff.mp hemp
      simp [← hcl, this]
    · rw [if_neg hemp] at h
      simp only [Except.ok.injEq] at h
      rw [← h]
      refine ⟨hcl, ?_⟩
      simp [hemp]

/-- Closed witness for `concat_list_manifest_order`: the manifest `[id=5,
id=2]` yields the concat list with scene 5's clip first. -/
theorem concat_list_manifest_order_witness :
    [tempScenePath "/out" (5 : Int), tempScenePath "/out" (2 : Int)]
      = m52.scenes.filterMap (sceneClipPlan edOk assets52 "/out") := by
  have h := concat_list_manifest_order edOk m52 assets52 "/out" "final.mp4"
    ⟨[tempScenePath "/out" 5, tempScenePath "/out" 2], [], false, true, false,
     [tempScenePath "/out" 5, tempScenePath "/out" 2], "/out/final.mp4"⟩ rfl
  exact h.1

theorem produceScenes_nil (env : Env) (cache : List (String × String)) (fs : FS) :
    produceScenes env cache [] fs = ([], [], fs, []) := rfl

theorem produceScenes_cons_ok (env : Env) (cache : List (String × String))
    (s : Scene) (rest : List Scene) (fs : FS) (a : List (String × String))
    (fs1 : FS) (invs1 : List Invocation)
    (hps : produceSceneAssets env cache fs s = (.ok a, fs1, invs1)) :
    produceScenes env cache (s :: rest) fs =
      ((s.id, a) :: (produceScenes env cache rest fs1).1,
       (produceScenes env cache rest fs1).2.1,
       (produceScenes env cache rest fs1).2.2.1,
       invs1 ++ (produceScenes env cache rest fs1).2.2.2) := by
  have hdef : produceScenes env cache (s :: rest) fs
      = (match produceSceneAssets env cache fs s with
         | (.ok a, fs1, invs1) =>
           match produceScenes env cache rest fs1 with
           | (as, es, fs2, invs2) => ((s.id, a) :: as, es, fs2, invs1 ++ invs2)
         | (.error e, fs1, invs1) =>
           match produceScenes env cache rest fs1 with
           | (as, es, fs2, invs2) => (as, (s.id, e) :: es, fs2, invs1 ++ invs2)) := rfl
  rw [hdef, hps]

theorem produceScenes_cons_err (env : Env) (cache : List (String × String))
    (s : Scene) (rest : List Scene) (fs : FS) (e : CalledProcessError)
    (fs1 : FS) (invs1 : List Invocation)
    (hps : produceSceneAssets env cache fs s = (.error e, fs1, invs1)) :
    produceScenes env cache (s :: rest) fs =
      ((produceScenes env cache rest fs1).1,
       (s.id, e) :: (produceScenes env cache rest fs1).2.1,
       (produceScenes env cache rest fs1).2.2.1,
       invs1 ++ (produceScenes env cache rest fs1).2.2.2) := by
  have hdef : produceScenes env cache (s :: rest) fs
      = (match produceSceneAssets env cache fs s with
         | (.ok a, fs1, invs1) =>
           match produceScenes env cache rest fs1 with
           | (as, es, fs2, invs2) => ((s.id, a) :: as, es, fs2, invs1 ++ invs2)
         | (.error e, fs1, invs1) =>
           match produceScenes env cache rest fs1 with
           | (as, es, fs2, invs2) => (as, (s.id, e) :: es, fs2, invs1 ++ invs2)) := rfl
  rw [hdef, hps]

theorem produceScenes_keys_subset (env : Env) (cache : List (String × String))
    (l : List Scene) (fs : FS) :
    ∀ k ∈ (produceScenes env cache l fs).1.map Prod.fst, k ∈ l.map Scene.id := by
  induction l generalizing fs with
  | nil => simp [produceScenes_nil]
  | cons s rest ih =>
    rcases hps : produceSceneAssets env cache fs s with ⟨res, fs1, invs1⟩
    cases res with
    | ok a =>
      rw [produceScenes_cons_ok env cache s rest fs a fs1 invs1 hps]
      dsimp only
      intro k hk
      simp only [List.map_cons, List.mem_cons] at hk ⊢
      rcases hk with rfl | hk
      · exact Or.inl rfl
      · exact Or.inr (ih fs1 k hk)
    | error e =>
      rw [produceScenes_cons_err env cache s rest fs e fs1 invs1 hps]
      dsimp only
      intro k hk
      simp only [List.map_cons, List.mem_cons]
      exact Or.inr (ih fs1 k hk)

theorem produceScenes_split (env : Env) (cache : List (String × String))
    (l1 : List Scene) (s : Scene) (l2 : List Scene) :
    ∀ fs e fsx invsx,
    produceSceneAssets env cache (produceScenes env cache l1 fs).2.2.1 s
        = (.error e, fsx, invsx) →
    (produceScenes env cache (l1 ++ s :: l2) fs).1
      = (produceScenes env cache l1 fs).1 ++ (produceScenes env cache l2 fsx).1
    ∧ (produceScenes env cache (l1 ++ s :: l2) fs).2.1
      = (produceScenes env cache l1 fs).2.1
        ++ (s.id, e) :: (produceScenes env cache l2 fsx).2.1 := by
  induction l1 with
  | nil =>
    intro fs e fsx invsx h
    rw [produceScenes_nil] at h
    dsimp only at h
    simp only [List.nil_append]
    rw [produceScenes_cons_err env cache s l2 fs e fsx invsx h, produceScenes_nil]
    exact ⟨(List.nil_append _).symm, (List.nil_append _).symm⟩
  | cons t rest ih =>
    intro fs e fsx invsx h
    rcases hpt : produceSceneAssets env cache fs t with ⟨rt, fst1, invt⟩
    cases rt with
    | ok a =>
      have hstate : (produceScenes env cache (t :: rest) fs).2.2.1
          = (produceScenes env cache rest fst1).2.2.1 := by
        rw [produceScenes_cons_ok env cache t rest fs a fst1 invt hpt]
      rw [hstate] at h
      have ihr := ih fst1 e fsx invsx h
      constructor
      · rw [show (t :: rest) ++ s :: l2 = t :: (rest ++ s :: l2) from rfl,
            produceScenes_cons_ok env cache t (rest ++ s :: l2) fs a fst1 invt hpt,
            produceScenes_cons_ok env cache t rest fs a fst1 invt hpt]
        dsimp only
        simp only [List.cons_append]
        rw [ihr.1]
      · rw [show (t :: rest) ++ s :: l2 = t :: (rest ++ s :: l2) from rfl,
            produceScenes_cons_ok env cache t (rest ++ s :: l2) fs a fst1 invt hpt,
            produceScenes_cons_ok env cache t rest fs a fst1 invt hpt]
        dsimp only
        rw [ihr.2]
    | error e2 =>
      have hstate : (produceScenes env cache (t :: rest) fs).2.2.1
          = (produceScenes env cache rest fst1).2.2.1 := by
        rw [produceScenes_cons_err env cache t rest fs e2 fst1 invt hpt]
      rw [hstate] at h
      have ihr := ih fst1 e fsx invsx h
      constructor
      · rw [show (t :: rest) ++ s :: l2 = t :: (rest ++ s :: l2) from rfl,
            produceScenes_cons_err env cache t (rest ++ s :: l2) fs e2 fst1 invt hpt,
            produceScenes_cons_err env cache t rest fs e2 fst1 invt hpt]
        dsimp only
        rw [ihr.1]
      · rw [show (t :: rest) ++ s :: l2 = t :: (rest ++ s :: l2) from rfl,
            produceScenes_cons_err env cache t (rest ++ s :: l2) fs e2 fst1 invt hpt,
            produceScenes_cons_err env cache t rest fs e2 fst1 invt hpt]
        dsimp only
        simp only [List.cons_append]
        rw [ihr.2]

/-- Claim C3: a failure inside one scene's pipeline is caught at the scene
boundary — the failing scene's entry is omitted from the asset map, its
error is recorded keyed by scene id, and the scenes before and after it are
produced exactly as they would be on their own (the producer returns a
partial asset map rather than raising). -/
theorem scene_failure_isolated (env : Env) (cache : List (String × String))
    (fs : FS) (l1 : List Scene) (s : Scene) (l2 : List Scene)
    (e : CalledProcessError) (fsx : FS) (invsx : List Invocation)
    (h : produceSceneAssets env cache (produceScenes env cache l1 fs).2.2.1 s
          = (.error e, fsx, invsx)) :
    (produceScenes env cache (l1 ++ s :: l2) fs).1
      = (produceScenes env cache l1 fs).1 ++ (produceScenes env cache l2 fsx).1
    ∧ (produceScenes env cache (l1 ++ s :: l2) fs).2.1
      = (produceScenes env cache l1 fs).2.1
        ++ (s.id, e) :: (produceScenes env cache l2 fsx).2.1
    ∧ (s.id, e) ∈ (produceScenes env cache (l1 ++ s :: l2) fs).2.1
    ∧ (s.id ∉ (l1 ++ l2).map Scene.id →
        s.id ∉ (produceScenes env cache (l1 ++ s :: l2) fs).1.map Prod.fst) := by
  have main := produceScenes_split env cache l1 s l2 fs e fsx invsx h
  refine ⟨main.1, main.2, ?_, ?_⟩
  · rw [main.2]
    exact List.mem_append_right _ (List.mem_cons_self _ _)
  · intro hid hmem
    rw [main.1] at hmem
    simp only [List.map_append, List.mem_append] at hmem
    simp only [List.map_append, List.mem_append] at hid
    rcases hmem with hm | hm
    · exact hid (Or.inl (produceScenes_keys_subset env cache l1 fs s.id hm))
    · exact hid (Or.inr (produceScenes_keys_subset env cache l2 fsx s.id hm))

/-- Closed witness for `scene_failure_isolated`: in a three-scene run where
scene 2's tool call fails, scene 2's error is recorded, scene 2 is absent
from the asset map, and scenes 1 and 3 are still produced. -/
theorem scene_failure_isolated_witness :
    ((2 : Int), eB) ∈ (produceScenes envFailB [] [sA, sB, sC] []).2.1
    ∧ (2 : Int) ∉ (produceScenes envFailB [] [sA, sB, sC] []).1.map Prod.fst
    ∧ (produceScenes envFailB [] [sA, sB, sC] []).1.map Prod.fst = [1, 3] := by
  have h := scene_failure_isolated envFailB [] [] [sA] sB [sC] eB
    [videoPath sA] [Invocation.veo "two" 4 (videoPath sB) none] rfl
  refine ⟨h.2.2.1, h.2.2.2 (by decide), ?_⟩
  have h1 := h.1
  rw [show ([sA] ++ sB :: [sC]) = [sA, sB, sC] from rfl] at h1
  rw [h1]
  rfl

theorem produceScenes_no_errors (env : Env) (cache : List (String × String))
    (l : List Scene) (fs : FS)
    (h : (produceScenes env cache l fs).2.1 = []) :
    (produceScenes env cache l fs).1.map Prod.fst = l.map Scene.id := by
  induction l generalizing fs with
  | nil => simp [produceScenes_nil]
  | cons s rest ih =>
    rcases hps : produceSceneAssets env cache fs s with ⟨res, fs1, invs1⟩
    cases res with
    | ok a =>
      rw [produceScenes_cons_ok env cache s rest fs a fs1 invs1 hps] at h ⊢
      dsimp only at h ⊢
      simp only [List.map_cons, List.cons.injEq]
      exact ⟨trivial, ih fs1 h⟩
    | error e =>
      rw [produceScenes_cons_err env cache s rest fs e fs1 invs1 hps] at h
      simp at h

/-- Claim C4: for a manifest whose scene ids are pairwise distinct, if no
scene's pipeline fails (no error is recorded), the asset map returned by
`produce_assets` has exactly one entry per scene, keyed by the scene ids in
manifest order. -/
theorem asset_map_complete_on_success (env : Env) (m : ProductionManifest)
    (cache0 : List (String × String)) (fs : FS)
    (as : List (Int × List (String × String)))
    (es : List (Int × CalledProcessError)) (c : List (String × String))
    (fs' : FS) (invs : List Invocation)
    (hnd : (m.scenes.map Scene.id).Nodup)
    (h : produce_assets env m cache0 fs = (.ok (as, es, c), fs', invs))
    (hes : es = []) :
    as.map Prod.fst = m.scenes.map Scene.id
    ∧ as.length = m.scenes.length
    ∧ (as.map Prod.fst).Nodup := by
  unfold produce_assets at h
  rcases hpre : prefillReferences env m.scenes cache0 fs with ⟨rc, fs1, invs1⟩
  rw [hpre] at h
  cases rc with
  | error e => simp at h
  | ok cache' =>
    dsimp only at h
    rcases hps : produceScenes env cache' m.scenes fs1 with ⟨as2, es2, fs2, invs2⟩
    rw [hps] at h
    dsimp only at h
    simp only [Prod.mk.injEq, Except.ok.injEq] at h
    obtain ⟨⟨ha, he, _⟩, _, _⟩ := h
    subst ha
    subst he
    have hkeys := produceScenes_no_errors env cache' m.scenes fs1
      (by rw [hps]; exact hes)
    rw [hps] at hkeys
    dsimp only at hkeys
    refine ⟨hkeys, ?_, ?_⟩
    · have := congrArg List.length hkeys
      simpa using this
    · rw [hkeys]
      exact hnd

/-- Closed witness for `asset_map_complete_on_success`: the three-scene
manifest in the all-success world yields asset-map keys `[1, 2, 3]`. -/
theorem asset_map_complete_on_success_witness :
    ([((1 : Int), sceneRecord sA), (2, sceneRecord sB), (3, sceneRecord sC)].map
      Prod.fst) = mABC.scenes.map Scene.id := by
  have h := asset_map_complete_on_success envAllOk mABC [] []
    [(1, sceneRecord sA), (2, sceneRecord sB), (3, sceneRecord sC)] [] []
    (produce_assets envAllOk mABC [] []).2.1
    (produce_assets envAllOk mABC [] []).2.2
    (by decide) rfl rfl
  exact h.1

theorem prefillReferences_nil (env : Env) (cache : List (String × String)) (fs : FS) :
    prefillReferences env [] cache fs = (.ok cache, fs, []) := rfl

theorem prefillReferences_cons (env : Env) (s : Scene) (rest : List Scene)
    (cache : List (String × String)) (fs : FS) :
    prefillReferences env (s :: rest) cache fs
      = (if optTruthy s.reference_group && optTruthy s.reference_prompt
            && !(cache.lookup (s.reference_group.getD "")).isSome then
          match generateReference env cache fs (s.reference_group.getD "")
              (s.reference_prompt.getD "") with
          | (.error e, fs', invs) => (.error e, fs', invs)
          | (.ok cache', fs', invs) =>
            match prefillReferences env rest cache' fs' with
            | (r, fs'', invs') => (r, fs'', invs ++ invs')
        else prefillReferences env rest cache fs) := rfl

theorem lookup_cons_isSome (x : String × String) (c : List (String × String))
    (k : String) (h : (c.lookup k).isSome = true) :
    ((x :: c).lookup k).isSome = true := by
  obtain ⟨k1, v1⟩ := x
  by_cases hk : (k == k1) = true
  · simp [List.lookup, hk]
  · simp only [Bool.not_eq_true] at hk
    simp [List.lookup, hk, h]

theorem lookup_self_cons (g v : String) (c : List (String × String)) :
    (((g, v) :: c).lookup g).isSome = true := by
  simp [List.lookup]

theorem generateReference_ok_cache (env : Env) (cache : List (String × String))
    (fs : FS) (g p : String) (c1 : List (String × String)) (fs1 : FS)
    (invs1 : List Invocation)
    (h : generateReference env cache fs g p = (.ok c1, fs1, invs1)) :
    c1 = (g, refPath g) :: cache := by
  unfold generateReference at h
  split at h
  · simp only [Prod.mk.injEq, Except.ok.injEq] at h
    exact h.1.symm
  · split at h
    case _ e fs' invs heq => simp at h
    case _ fs' invs heq =>
      simp only [Prod.mk.injEq, Except.ok.injEq] at h
      exact h.1.symm

theorem prefill_mono (env : Env) (l : List Scene) :
    ∀ cache fs c fs1 invs1,
    prefillReferences env l cache fs = (.ok c, fs1, invs1) →
    ∀ k, (cache.lookup k).isSome = true → (c.lookup k).isSome = true := by
  induction l with
  | nil =>
    intro cache fs c fs1 invs1 h k hk
    rw [prefillReferences_nil] at h
    simp only [Prod.mk.injEq, Except.ok.injEq] at h
    rw [← h.1]
    exact hk
  | cons s rest ih =>
    intro cache fs c fs1 invs1 h k hk
    rw [prefillReferences_cons] at h
    by_cases hc : (optTruthy s.reference_group && optTruthy s.reference_prompt
        && !(cache.lookup (s.reference_group.getD "")).isSome) = true
    · rw [if_pos hc] at h
      rcases hgen : generateReference env cache fs (s.reference_group.getD "")
          (s.reference_prompt.getD "") with ⟨rg, fsg, invsg⟩
      rw [hgen] at h
      cases rg with
      | error e => simp at h
      | ok cache' =>
        dsimp only at h
        rcases hrest : prefillReferences env rest cache' fsg with ⟨r2, fs2, invs2⟩
        rw [hrest] at h
        dsimp only at h
        simp only [Prod.mk.injEq] at h
        have hpre : prefillReferences env rest cache' fsg = (.ok c, fs2, invs2) := by
          rw [hrest, h.1]
        have hcache' := generateReference_ok_cache env cache fs _ _ cache' fsg invsg hgen
        refine ih cache' fsg c fs2 invs2 hpre k ?_
        rw [hcache']
        exact lookup_cons_isSome _ _ _ hk
    · rw [if_neg hc] at h
      exact ih cache fs c fs1 invs1 h k hk

theorem prefill_populates (env : Env) (l : List Scene) :
    ∀ cache fs c fs1 invs1,
    prefillReferences env l cache fs = (.ok c, fs1, invs1) →
    ∀ s ∈ l, optTruthy s.reference_group = true →
      optTruthy s.reference_prompt = true →
      (c.lookup (s.reference_group.getD "")).isSome = true := by
  induction l with
  | nil =>
    intro cache fs c fs1 invs1 h s hs
    exact absurd hs (List.not_mem_nil s)
  | cons t rest ih =>
    intro cache fs c fs1 invs1 h s hs hg hp
    rw [prefillReferences_cons] at h
    by_cases hc : (optTruthy t.reference_group && optTruthy t.reference_prompt
        && !(cache.lookup (t.reference_group.getD "")).isSome) = true
    · rw [if_pos hc] at h
      rcases hgen : generateReference env cache fs (t.reference_group.getD "")
          (t.reference_prompt.getD "") with ⟨rg, fsg, invsg⟩
      rw [hgen] at h
      cases rg with
      | error e => simp at h
      | ok cache' =>
        dsimp only at h
        rcases hrest : prefillReferences env rest cache' fsg with ⟨r2, fs2, invs2⟩
        rw [hrest] at h
        dsimp only at h
        simp only [Prod.mk.injEq] at h
        have hpre : prefillReferences env rest cache' fsg = (.ok c, fs2, invs2) := by
          rw [hrest, h.1]
        have hcache' := generateReference_ok_cache env cache fs _ _ cache' fsg invsg hgen
        rcases List.mem_cons.mp hs with rfl | hsr
        · refine prefill_mono env rest cache' fsg c fs2 invs2 hpre _ ?_
          rw [hcache']
          exact lookup_self_cons _ _ _
        · exact ih cache' fsg c fs2 invs2 hpre s hsr hg hp
    · rw [if_neg hc] at h
      rcases List.mem_cons.mp hs with rfl | hsr
      · cases hsome : (cache.lookup (s.reference_group.getD "")).isSome with
        | false =>
          exact absurd (by rw [hg, hp, hsome]; rfl) hc
        | true =>
          exact prefill_mono env rest cache fs c fs1 invs1 h _ hsome
      · exact ih cache fs c fs1 invs1 h s hsr hg hp

/-- Claim C6: reference-cache population completes before any scene
production begins — `produce_assets` runs the prefill phase to completion
first, and every scene is then produced against the resulting cache, which
holds an entry for every reference group defined (with a prompt) anywhere
in the manifest. -/
theorem references_prefilled_before_scenes (env : Env) (m : ProductionManifest)
    (fs : FS) (c : List (String × String)) (fs1 : FS) (invs1 : List Invocation)
    (h : prefillReferences env m.scenes [] fs = (.ok c, fs1, invs1)) :
    (∀ s ∈ m.scenes, optTruthy s.reference_group = true →
      optTruthy s.reference_prompt = true →
      (c.lookup (s.reference_group.getD "")).isSome = true)
    ∧ produce_assets env m [] fs
      = (.ok ((produceScenes env c m.scenes fs1).1,
              (produceScenes env c m.scenes fs1).2.1, c),
         (produceScenes env c m.scenes fs1).2.2.1,
         invs1 ++ (produceScenes env c m.scenes fs1).2.2.2) := by
  refine ⟨prefill_populates env m.scenes [] fs c fs1 invs1 h, ?_⟩
  unfold produce_assets
  rw [h]

/-- Closed witness for `references_prefilled_before_scenes` on the
one-scene manifest defining reference group `captain`. -/
theorem references_prefilled_before_scenes_witness :
    (([("captain", refPath "captain")] :
        List (String × String)).lookup (sRef.reference_group.getD "")).isSome = true := by
  have h := references_prefilled_before_scenes envAllOk mRef []
    [("captain", refPath "captain")] [refPath "captain"]
    [Invocation.refImageGen "captain" "portrait of a captain" (refPath "captain")] rfl
  exact h.1 sRef (List.mem_cons_self _ _) rfl rfl

/-- Claim C7: asset production is idempotent via skip-if-exists — once a
reference generation has succeeded, generating the same group again
launches no process (the reference file exists, so it is a cache hit), and
re-running scene production against a working directory whose outputs all
exist returns the record with zero tool invocations and an unchanged
filesystem. -/
theorem idempotent_skip_if_exists :
    (∀ (env : Env) (cache : List (String × String)) (fs : FS) (g p : String)
        (c1 : List (String × String)) (fs1 : FS) (invs1 : List Invocation),
      (∀ inv, (env.run inv).exitCode = 0 → (env.run inv).created = true) →
      generateReference env cache fs g p = (.ok c1, fs1, invs1) →
      invs1.length ≤ 1
      ∧ generateReference env c1 fs1 g p
          = (.ok ((g, refPath g) :: c1), fs1, []))
    ∧ (∀ (env : Env) (cache : List (String × String)) (fs : FS) (s : Scene),
      videoPath s ∈ fs → imagePath s ∈ fs → narrationPath s ∈ fs →
      scorePath s ∈ fs →
      produceSceneAssets env cache fs s = (.ok (sceneRecord s), fs, [])) := by
  constructor
  · intro env cache fs g p c1 fs1 invs1 hcr h
    unfold generateReference at h
    by_cases hex : refPath g ∈ fs
    · rw [if_pos hex] at h
      simp only [Prod.mk.injEq, Except.ok.injEq] at h
      refine ⟨by rw [← h.2.2]; simp, ?_⟩
      unfold generateReference
      rw [if_pos (h.2.1 ▸ hex)]
    · rw [if_neg hex] at h
      split at h
      case _ e fs' invs heq => simp at h
      case _ fs' invs heq =>
        simp only [Prod.mk.injEq, Except.ok.injEq] at h
        obtain ⟨hi, hz, hfs'⟩ := toolCall_ok env fs _ fs' invs heq
        have hcrt := hcr _ hz
        rw [hcrt] at hfs'
        simp only [if_true] at hfs'
        have hmem : refPath g ∈ fs1 := by
          rw [← h.2.1, hfs']
          exact List.mem_cons_self _ _
        refine ⟨by rw [← h.2.2, hi]; simp, ?_⟩
        unfold generateReference
        rw [if_pos hmem]
  · intro env cache fs s h1 h2 h3 h4
    unfold produceSceneAssets
    have hv : visualStep env cache fs s = (none, fs, []) := by
      unfold visualStep
      by_cases hvt : s.visual_type = "video"
      · rw [if_pos hvt, if_pos h1]
      · rw [if_neg hvt, if_pos h2]
    rw [hv]
    dsimp only
    by_cases hg : s.audio_source = "generated"
    · rw [if_pos hg]
      have hn : narrationStep env fs s = (none, fs, []) := by
        unfold narrationStep
        by_cases ht : optTruthy s.narration_text = true
        · rw [if_pos ht, if_pos h3]
        · rw [if_neg ht]
      rw [hn]
      dsimp only
      have hm : musicStep env fs s = (none, fs, []) := by
        unfold musicStep
        by_cases ht : optTruthy s.music_prompt = true
        · rw [if_pos ht, if_pos h4]
        · rw [if_neg ht]
      rw [hm]
      rfl
    · rw [if_neg hg]

/-- Closed witness for `idempotent_skip_if_exists`: a second reference
generation for group `captain` launches nothing, and re-running the
fully-populated scene `sGen` issues zero invocations. -/
theorem idempotent_skip_if_exists_witness :
    generateReference envAllOk [("captain", refPath "captain")]
        [refPath "captain"] "captain" "portrait of a captain"
      = (.ok (("captain", refPath "captain") :: [("captain", refPath "captain")]),
         [refPath "captain"], [])
    ∧ produceSceneAssets envAllOk [] fsFull sGen
      = (.ok (sceneRecord sGen), fsFull, []) := by
  constructor
  · exact (idempotent_skip_if_exists.1 envAllOk [] [] "captain"
      "portrait of a captain" [("captain", refPath "captain")] [refPath "captain"]
      [Invocation.refImageGen "captain" "portrait of a captain" (refPath "captain")]
      (fun _ _ => rfl) rfl).2
  · exact idempotent_skip_if_exists.2 envAllOk [] fsFull sGen
      (by simp [fsFull]) (by simp [fsFull]) (by simp [fsFull]) (by simp [fsFull])

end DirectorAgent
